import Mathlib

/-!
Verification development for the `@empellio/image-optimizer` library.

We shallowly embed the transform orchestrator (`createImageOptimizer`/`process`
in `src/optimizer.ts`), the request schema (`querySchema`), cache-key
derivation, the sharp pipeline construction (`buildSharpPipeline`), the ETag
computation (`createEtag`) and the disk cache backend (`src/cache/disk.ts`).

Bytes are modelled as `List Nat`, machine numbers as `Nat`/`Int`.  External
collaborators (the WHATWG URL parser, the `got` fetcher, the sharp transform
engine, the base64 codec and the SHA-1 filename hash) are opaque parameters
of the model, bundled in an `Env` record or passed explicitly, exactly at the
call sites where the source invokes them.
-/

/-- Fit mode enum of `querySchema` (`cover | contain | fill | inside | outside | crop`). -/
inductive Fit where
  | cover | contain | fill | inside | outside | crop
deriving DecidableEq, Repr, BEq

/-- Output format enum of `querySchema` (`webp | avif | jpeg | png`). -/
inductive Format where
  | webp | avif | jpeg | png
deriving DecidableEq, Repr, BEq

/-- Crop strategy enum of `querySchema` (`smart | center`). -/
inductive Crop where
  | smart | center
deriving DecidableEq, Repr, BEq

/-- Placeholder enum of `querySchema` (`blur | none`). -/
inductive Placeholder where
  | blur | nonePh
deriving DecidableEq, Repr, BEq

/-- `OptimizerConfig` from `src/optimizer.ts` (the `cache` member is modelled
separately, as the cache-state argument of `process`). -/
structure Config where
  formats : Option (List Format) := none
  maxWidth : Option Nat := none
  maxHeight : Option Nat := none
  defaultQuality : Option Nat := none
  whitelist : Option (List String) := none
deriving Repr

/-- `ProcessInput` from `src/optimizer.ts` (the unused `headers` member is
omitted; `buffer` is raw bytes). -/
structure ProcessInput where
  url : Option String := none
  buffer : Option (List Nat) := none
  w : Option Nat := none
  h : Option Nat := none
  fit : Option Fit := none
  format : Option Format := none
  quality : Option Nat := none
  crop : Option Crop := none
  bg : Option String := none
  blur : Option Nat := none
  grayscale : Option Bool := none
  rotate : Option Int := none
  placeholder : Option Placeholder := none
deriving Repr

/-- `ProcessResult` from `src/optimizer.ts`. -/
structure ProcessResult where
  buffer : List Nat
  contentType : String
  etag : String
  width : Option Nat := none
  height : Option Nat := none
deriving DecidableEq, Repr

/-- The result of `new URL(s)` as far as the source consumes it:
`.hostname` and `.toString()`. -/
structure UrlParts where
  hostname : String
  normalized : String
deriving DecidableEq, Repr

/-- Output object of `sharp(...).toBuffer({ resolveWithObject: true })`:
`data` plus `info.format`, `info.width`, `info.height`. -/
structure SharpOut where
  data : List Nat
  format : Option String
  width : Nat
  height : Nat
deriving DecidableEq, Repr

/-- One accumulated operation of the sharp pipeline, in the order the source
chains the calls. -/
inductive SharpOp where
  /-- `input.resize({ width, height, fit, position })` from `buildSharpPipeline`;
  `posCentre = true` encodes `position: "centre"`, `false` encodes `"attention"`. -/
  | resizeWH (w h : Option Nat) (fit : Fit) (posCentre : Bool)
  /-- `sh.resize({ width: 10 })` of the placeholder path. -/
  | resizeWidth (w : Nat)
  /-- `input.flatten({ background: bg })`. -/
  | flatten (bg : String)
  /-- `input.blur(r)`. -/
  | blur (r : Nat)
  /-- `input.grayscale()`. -/
  | grayscale
  /-- `input.rotate(d)`. -/
  | rotate (d : Int)
  /-- The format-specific encode call `sh.webp({quality}) | sh.avif(...) | ...`. -/
  | encode (f : Format) (q : Nat)
deriving DecidableEq, Repr

/-- External collaborators consumed by `process`:
`validUrl` is zod's `z.string().url()` test, `parseUrl` is Node's WHATWG
`new URL(s)` (`none` models the constructor throwing), `fetch` is
`fetchImage` of `src/fetch.ts` (`Except.error` models the `got` request
failing after its retries), and `transform` is the sharp engine run on the
source bytes with the accumulated operation chain. -/
structure Env where
  validUrl : String → Bool
  parseUrl : String → Option UrlParts
  fetch : String → Except Unit (List Nat)
  transform : List Nat → List SharpOp → SharpOut

/-- Errors `process` can throw, tagged by their source line. -/
inductive PError where
  /-- `querySchema.partial({url: true}).parse(input)` throwing a `ZodError`. -/
  | schemaError
  /-- `"No input provided"` with `statusCode: 400`. -/
  | noInput
  /-- `"Source URL not allowed"` with `statusCode: 403` (`AccessDeniedError`). -/
  | accessDenied
  /-- `new URL(parsed.url)` throwing inside the cache-key expression. -/
  | urlParse
  /-- `fetchImage` rejecting. -/
  | fetchFailed
  /-- `await cache.set(cacheKey, result)` rejecting (the `await` has no catch). -/
  | cacheSetFailed
deriving DecidableEq, Repr

/-- `querySchema.partial({ url: true }).parse(input)` output: `fit` has a
plain `.default("cover")` so it is always present; `crop` is declared
`.default("center").optional()` — in zod the outer `ZodOptional` returns
`undefined` before the inner `ZodDefault` runs, so an absent `crop` stays
absent. -/
structure Parsed where
  url : Option String
  w : Option Nat
  h : Option Nat
  fit : Fit
  format : Option Format
  quality : Option Nat
  crop : Option Crop
  bg : Option String
  blur : Option Nat
  grayscale : Option Bool
  rotate : Option Int
  placeholder : Option Placeholder
deriving DecidableEq, Repr

/-- An optional bounded number check: `z.coerce.number().int().min(lo).max(hi)`
on an optional field holds vacuously when the field is absent. -/
def okBound (lo hi : Nat) : Option Nat → Bool
  | none => true
  | some n => decide (lo ≤ n) && decide (n ≤ hi)

/-- `querySchema.partial({ url: true }).parse(input)`: validates `url` (when
present) with `z.string().url()`, bounds `w`/`h` to positive integers at most
10000, `quality` to `[1,100]`, `blur` to `[0,100]`; applies the `fit` default
`cover`; leaves `crop` untouched (its `.default("center")` is defeated by the
trailing `.optional()`, see `Parsed`).  `none` models the parse throwing. -/
def zodParse (env : Env) (i : ProcessInput) : Option Parsed :=
  if (match i.url with
      | some s => env.validUrl s
      | none => true)
     && okBound 1 10000 i.w && okBound 1 10000 i.h
     && okBound 1 100 i.quality && okBound 0 100 i.blur then
    some { url := i.url, w := i.w, h := i.h,
           fit := i.fit.getD Fit.cover,
           format := i.format, quality := i.quality,
           crop := i.crop, bg := i.bg, blur := i.blur,
           grayscale := i.grayscale, rotate := i.rotate,
           placeholder := i.placeholder }
  else
    none

/-- `config.formats ?? ["webp", "avif", "jpeg", "png"]` (the `allowedFormats`
set). -/
def allowedFormats (cfg : Config) : List Format :=
  cfg.formats.getD [Format.webp, Format.avif, Format.jpeg, Format.png]

/-- `config.defaultQuality ?? 80`. -/
def defaultQualityOf (cfg : Config) : Nat :=
  cfg.defaultQuality.getD 80

/-- JavaScript `String.prototype.endsWith(post)`: the receiver's characters
end with the argument's characters. -/
def strEndsWith (s post : String) : Bool :=
  post.data.isSuffixOf s.data

/-- The whitelist rejection test of `process` (lines 139-151): runs only when
`config.whitelist` is set and the parsed input has a URL; each entry `d` tests
`new URL(parsed.url).hostname.endsWith(d)`, a throwing URL constructor
counting as not allowed. -/
def whitelistRejects (cfg : Config) (env : Env) (url : Option String) : Bool :=
  match cfg.whitelist, url with
  | some ws, some s =>
      !(ws.any fun d =>
          match env.parseUrl s with
          | some u => strEndsWith u.hostname d
          | none => false)
  | _, _ => false

/-- JavaScript truthiness of an optional number (`undefined` and `0` are
falsy). -/
def truthyNat : Option Nat → Bool
  | none => false
  | some n => n != 0

/-- JavaScript truthiness of an optional integer. -/
def truthyInt : Option Int → Bool
  | none => false
  | some n => n != 0

/-- JavaScript truthiness of an optional string (`undefined` and `""` are
falsy). -/
def truthyStr : Option String → Bool
  | none => false
  | some s => s != ""

/-- The dimension-clamping statements of `process` (lines 153-155):
`if (config.maxWidth && input.w && input.w > config.maxWidth) input.w = config.maxWidth;`.
Note these statements mutate the caller's `input` object, of which `parsed`
is an independent zod copy. -/
def clampW (cfg : Config) (i : ProcessInput) : ProcessInput :=
  match cfg.maxWidth, i.w with
  | some mw, some w =>
      if mw != 0 && w != 0 && w > mw then { i with w := some mw } else i
  | _, _ => i

/-- The height clamp, `if (config.maxHeight && input.h && input.h > config.maxHeight) input.h = config.maxHeight;`. -/
def clampH (cfg : Config) (i : ProcessInput) : ProcessInput :=
  match cfg.maxHeight, i.h with
  | some mh, some h =>
      if mh != 0 && h != 0 && h > mh then { i with h := some mh } else i
  | _, _ => i

/-- Both clamping statements in source order. -/
def clampDims (cfg : Config) (i : ProcessInput) : ProcessInput :=
  clampH cfg (clampW cfg i)

/-- The object literal serialized into the cache key (lines 157-170), with its
source property order `u, w, h, fit, f, q, c, bg, bl, gs, r, p`. -/
structure KeyFields where
  u : String
  w : Option Nat
  h : Option Nat
  fit : Fit
  f : Option Format
  q : Nat
  c : Option Crop
  bg : Option String
  bl : Option Nat
  gs : Option Bool
  r : Option Int
  p : Option Placeholder
deriving DecidableEq, Repr

/-- The enum value strings. -/
def fitStr : Fit → String
  | .cover => "cover" | .contain => "contain" | .fill => "fill"
  | .inside => "inside" | .outside => "outside" | .crop => "crop"

/-- The format value strings. -/
def formatStr : Format → String
  | .webp => "webp" | .avif => "avif" | .jpeg => "jpeg" | .png => "png"

/-- The crop value strings. -/
def cropStr : Crop → String
  | .smart => "smart" | .center => "center"

/-- The placeholder value strings. -/
def placeholderStr : Placeholder → String
  | .blur => "blur" | .nonePh => "none"

/-- A JSON string literal (the values involved contain no characters needing
escapes). -/
def jstr (s : String) : String := "\"" ++ s ++ "\""

/-- One `JSON.stringify` member: a property whose value is `undefined` is
dropped from the output. -/
def optEntry (k : String) : Option String → List String
  | none => []
  | some v => [jstr k ++ ":" ++ v]

/-- JSON boolean. -/
def jbool (b : Bool) : String := if b then "true" else "false"

/-- `JSON.stringify` of the cache-key object literal: members in declaration
order, `undefined`-valued members dropped. -/
def stringifyKey (kf : KeyFields) : String :=
  "\x7b" ++ String.intercalate ","
    (optEntry "u" (some (jstr kf.u)) ++
     optEntry "w" (kf.w.map toString) ++
     optEntry "h" (kf.h.map toString) ++
     optEntry "fit" (some (jstr (fitStr kf.fit))) ++
     optEntry "f" (kf.f.map fun f => jstr (formatStr f)) ++
     optEntry "q" (some (toString kf.q)) ++
     optEntry "c" (kf.c.map fun c => jstr (cropStr c)) ++
     optEntry "bg" (kf.bg.map jstr) ++
     optEntry "bl" (kf.bl.map toString) ++
     optEntry "gs" (kf.gs.map jbool) ++
     optEntry "r" (kf.r.map toString) ++
     optEntry "p" (kf.p.map fun p => jstr (placeholderStr p))) ++ "\x7d"

/-- The cache-key object literal of `process` (lines 157-170):
`u` is `new URL(parsed.url).toString()` when a URL is present (the constructor
throwing is an uncaught error here) and the fixed sentinel `"buffer"`
otherwise; `q` is `parsed.quality ?? defaultQuality`; the remaining members
are taken from `parsed` verbatim. -/
def keyFieldsOf (env : Env) (dq : Nat) (p : Parsed) : Except PError KeyFields :=
  match p.url with
  | some s =>
      match env.parseUrl s with
      | some u =>
          .ok { u := u.normalized, w := p.w, h := p.h, fit := p.fit,
                f := p.format, q := p.quality.getD dq, c := p.crop,
                bg := p.bg, bl := p.blur, gs := p.grayscale,
                r := p.rotate, p := p.placeholder }
      | none => .error PError.urlParse
  | none =>
      .ok { u := "buffer", w := p.w, h := p.h, fit := p.fit,
            f := p.format, q := p.quality.getD dq, c := p.crop,
            bg := p.bg, bl := p.blur, gs := p.grayscale,
            r := p.rotate, p := p.placeholder }

/-- `cacheKey` of `process`: `JSON.stringify` applied to the key object. -/
def deriveKey (env : Env) (dq : Nat) (p : Parsed) : Except PError String :=
  (keyFieldsOf env dq p).map stringifyKey

/-- `buildSharpPipeline` (lines 100-110), invoked with
`pipelineParams = { ...parsed, fit: parsed.fit ?? "cover" }`, i.e. on the
zod-parsed (unclamped) fields: a resize when `w || h` is truthy, with `fit`
`"crop"` mapped to `"cover"` and `position` `"centre"` exactly when
`crop === "center"` (an absent `crop` yields `"attention"`); then optional
flatten, blur, grayscale and rotate guarded by JS truthiness. -/
def buildSharpPipeline (p : Parsed) : List SharpOp :=
  (if truthyNat p.w || truthyNat p.h then
     [SharpOp.resizeWH p.w p.h (if p.fit == Fit.crop then Fit.cover else p.fit)
        (p.crop == some Crop.center)]
   else []) ++
  (if truthyStr p.bg then [SharpOp.flatten (p.bg.getD "")] else []) ++
  (if truthyNat p.blur then [SharpOp.blur (p.blur.getD 0)] else []) ++
  (if p.grayscale == some true then [SharpOp.grayscale] else []) ++
  (if truthyInt p.rotate then [SharpOp.rotate (p.rotate.getD 0)] else [])

/-- `parsed.format && allowedFormats.has(parsed.format) ? parsed.format : undefined`
(line 189). -/
def allowedRequestFormat (cfg : Config) : Option Format → Option Format
  | some f => if (allowedFormats cfg).contains f then some f else none
  | none => none

/-- The full operation chain `process` hands to the engine: the
`buildSharpPipeline` chain, then the placeholder override
`sh.resize({width: 10}).blur(10)` when `parsed.placeholder === "blur"`
(lines 194-196), then the format-specific encode with
`q = parsed.quality ?? defaultQuality` when the requested format is in the
allowed set (lines 198-201). -/
def fullOps (cfg : Config) (p : Parsed) : List SharpOp :=
  buildSharpPipeline p ++
  (if p.placeholder == some Placeholder.blur then
     [SharpOp.resizeWidth 10, SharpOp.blur 10]
   else []) ++
  (match allowedRequestFormat cfg p.format with
   | some f => [SharpOp.encode f (p.quality.getD (defaultQualityOf cfg))]
   | none => [])

/-- `formatToContentType` (lines 112-125): a switch on the format string, any
other value falling through to `application/octet-stream`. -/
def formatToContentType (s : String) : String :=
  if s = "webp" then "image/webp"
  else if s = "avif" then "image/avif"
  else if s = "jpeg" then "image/jpeg"
  else if s = "png" then "image/png"
  else "application/octet-stream"

/-- The `contentType` member of the assembled result (line 208):
`format ? formatToContentType(format) : output.info.format ? formatToContentType(output.info.format) : "application/octet-stream"`. -/
def contentTypeOf (fmt : Option Format) (out : SharpOut) : String :=
  match fmt with
  | some f => formatToContentType (formatStr f)
  | none =>
      match out.format with
      | some s => if s != "" then formatToContentType s else "application/octet-stream"
      | none => "application/octet-stream"

/-- `n.toString(16)` (lowercase hex digits). -/
def hexStr (n : Nat) : String := String.mk (Nat.toDigits 16 n)

/-- `createEtag` (lines 94-98): a weak validator from the byte length in hex
and the sum of the first 64 bytes modulo 65536. -/
def createEtag (bytes : List Nat) : String :=
  "W/\"" ++ hexStr bytes.length ++ "-" ++
    toString ((bytes.take 64).foldl (fun a b => (a + b) % 65536) 0) ++ "\""

/-- The `CacheLayer` contract of `src/cache/index.ts`, as the orchestrator
sees it: `get` may update backend state (recency, opportunistic purge),
`set` may reject. -/
structure CacheImpl (σ : Type) where
  get : String → σ → Option ProcessResult × σ
  set : String → ProcessResult → σ → Except Unit σ

/-- `cache.get(cacheKey)` guarded by `if (cache)`. -/
def cacheLookup (impl : CacheImpl σ) (c : Option σ) (key : String) :
    Option ProcessResult × Option σ :=
  match c with
  | none => (none, none)
  | some st =>
      let r := impl.get key st
      (r.1, some r.2)

/-- `if (cache) await cache.set(cacheKey, result)` — the `await` has no
catch, so a rejection is the caller's. -/
def cacheWrite (impl : CacheImpl σ) (c : Option σ) (key : String)
    (v : ProcessResult) : Except Unit (Option σ) :=
  match c with
  | none => .ok none
  | some st => (impl.set key v st).map some

/-- Observable outcome of one `process` call: its returned value or thrown
error, the final cache state, and instrumentation recording whether the
fetcher and the transform engine were invoked, which cache key was derived,
and which operation chain was executed. -/
structure POutcome (σ : Type) where
  result : Except PError ProcessResult
  cache : Option σ
  fetched : Bool := false
  transformed : Bool := false
  keyUsed : Option String := none
  opsUsed : Option (List SharpOp) := none

/-- Result assembly (lines 203-212): output bytes, the content type (from
the allowed requested format when present, else from the engine-reported
output format, else `application/octet-stream`), the ETag over the output
bytes, and the engine-reported dimensions. -/
def assembleResult (fmt : Option Format) (out : SharpOut) : ProcessResult :=
  { buffer := out.data, contentType := contentTypeOf fmt out,
    etag := createEtag out.data,
    width := some out.width, height := some out.height }

/-- Source-byte acquisition (lines 179-185): the supplied buffer verbatim, or
`fetchImage(parsed.url!)`; the returned flag records that the fetcher ran. -/
def sourceBytes (env : Env) (i1 : ProcessInput) (p : Parsed) :
    Except PError (List Nat × Bool) :=
  match i1.buffer with
  | some b => .ok (b, false)
  | none =>
      match env.fetch (p.url.getD "") with
      | .ok b => .ok (b, true)
      | .error _ => .error PError.fetchFailed

/-- The `process` function of `createImageOptimizer` (lines 132-216), over an
abstract cache backend `impl` with state `cacheSt` (`none` = no cache
configured): zod parse, no-input check, whitelist check, the (ineffective,
`input`-mutating) dimension clamp, cache-key derivation from `parsed`, cache
lookup with early return on a hit, source-byte acquisition, the sharp
pipeline run, ETag and result assembly, and the awaited cache write. -/
def process (cfg : Config) (env : Env) (impl : CacheImpl σ) (cacheSt : Option σ)
    (input : ProcessInput) : POutcome σ :=
  match zodParse env input with
  | none => { result := .error PError.schemaError, cache := cacheSt }
  | some parsed =>
    if input.buffer.isNone && parsed.url.isNone then
      { result := .error PError.noInput, cache := cacheSt }
    else if whitelistRejects cfg env parsed.url then
      { result := .error PError.accessDenied, cache := cacheSt }
    else
      let input1 := clampDims cfg input
      match keyFieldsOf env (defaultQualityOf cfg) parsed with
      | .error e => { result := .error e, cache := cacheSt }
      | .ok kf =>
        let key := stringifyKey kf
        match cacheLookup impl cacheSt key with
        | (some hit, cacheSt1) =>
            { result := .ok hit, cache := cacheSt1, keyUsed := some key }
        | (none, cacheSt1) =>
          match sourceBytes env input1 parsed with
          | .error e =>
              { result := .error e, cache := cacheSt1,
                fetched := input1.buffer.isNone, keyUsed := some key }
          | .ok (bytes, didFetch) =>
            let ops := fullOps cfg parsed
            let out := env.transform bytes ops
            let r := assembleResult (allowedRequestFormat cfg parsed.format) out
            match cacheWrite impl cacheSt1 key r with
            | .error _ =>
                { result := .error PError.cacheSetFailed, cache := cacheSt1,
                  fetched := didFetch, transformed := true,
                  keyUsed := some key, opsUsed := some ops }
            | .ok cacheSt2 =>
                { result := .ok r, cache := cacheSt2,
                  fetched := didFetch, transformed := true,
                  keyUsed := some key, opsUsed := some ops }

/-! ### Concrete cache backends -/

/-- The in-memory backend (`src/cache/memory.ts`) as the orchestrator sees it
within one TTL window and under its 500-entry capacity: an association list,
`get` returning the stored value without mutation, `set` replacing the entry
for the key and never rejecting. -/
def memCache : CacheImpl (List (String × ProcessResult)) where
  get key st := ((st.find? fun e => e.fst == key).map Prod.snd, st)
  set key v st := .ok ((key, v) :: st.filter fun e => e.fst != key)

/-- A backend whose `set` always rejects (a failing cache write); `get`
always misses. -/
def failSetCache : CacheImpl Unit where
  get _ st := (none, st)
  set _ _ _ := .error ()

/-! ### The disk backend (`src/cache/disk.ts`) -/

/-- The serialized `value` member of a disk `CacheRecord`: a `ProcessResult`
whose `buffer` was replaced by its base64 text (`value.buffer.toString("base64")`). -/
structure DiskStored where
  buffer : String
  contentType : String
  etag : String
  width : Option Nat := none
  height : Option Nat := none
deriving DecidableEq, Repr

/-- The content of one cache file: a parseable `CacheRecord`
(`{ value, expiresAt }`, `expiresAt` null meaning no expiry), or bytes on
which `JSON.parse` throws. -/
inductive DiskFile where
  | record (value : DiskStored) (expiresAt : Option Nat)
  | corrupt
deriving DecidableEq, Repr

/-- `fileForKey`: the key's SHA-1 hex digest (the hash function is an opaque
parameter) with a `.json` suffix, joined to the cache directory. -/
def diskFileName (hash : String → String) (key : String) : String :=
  hash key ++ ".json"

/-- Directory listing lookup (`fs.readFile` succeeding exactly when the file
exists). -/
def lookupFile (dir : List (String × DiskFile)) (f : String) : Option DiskFile :=
  (dir.find? fun e => e.fst == f).map Prod.snd

/-- `fs.rm(file)`. -/
def removeFile (dir : List (String × DiskFile)) (f : String) :
    List (String × DiskFile) :=
  dir.filter fun e => e.fst != f

/-- `fs.writeFile(file, ...)` (overwrite). -/
def insertFile (dir : List (String × DiskFile)) (f : String) (c : DiskFile) :
    List (String × DiskFile) :=
  (f, c) :: removeFile dir f

/-- The JS truthiness test `rec.expiresAt && Date.now() > rec.expiresAt`. -/
def expiryPassed (expiresAt : Option Nat) (now : Nat) : Bool :=
  match expiresAt with
  | some e => e != 0 && now > e
  | none => false

/-- Buffer revival on read: `Buffer.from(value.buffer, "base64")` with the
base64 decoder an opaque parameter. -/
def reviveResult (dec : String → List Nat) (v : DiskStored) : ProcessResult :=
  { buffer := dec v.buffer, contentType := v.contentType, etag := v.etag,
    width := v.width, height := v.height }

/-- Serialization on write: the `buffer` member re-encoded as base64 text. -/
def storeResult (enc : List Nat → String) (v : ProcessResult) : DiskStored :=
  { buffer := enc v.buffer, contentType := v.contentType, etag := v.etag,
    width := v.width, height := v.height }

/-- `get` of `createDiskCache` (`src/cache/disk.ts` lines 22-40): read the
file named by the key's hash — a read or parse failure is caught and yields
`null`; a record past its stored expiry is deleted (`fs.rm`) and yields
`null`; otherwise the stored value is returned with its buffer revived. -/
def diskGet (hash : String → String) (dec : String → List Nat) (now : Nat)
    (dir : List (String × DiskFile)) (key : String) :
    Option ProcessResult × List (String × DiskFile) :=
  let file := diskFileName hash key
  match lookupFile dir file with
  | none => (none, dir)
  | some DiskFile.corrupt => (none, dir)
  | some (DiskFile.record v expiresAt) =>
      if expiryPassed expiresAt now then
        (none, removeFile dir file)
      else
        (some (reviveResult dec v), dir)

/-- `set` of `createDiskCache` (lines 41-51): write a record whose
`expiresAt` is `Date.now() + ttl*1000` when a (truthy) ttl is configured and
null otherwise, the value's buffer text-encoded. -/
def diskSet (hash : String → String) (enc : List Nat → String)
    (ttl : Option Nat) (now : Nat) (dir : List (String × DiskFile))
    (key : String) (v : ProcessResult) : List (String × DiskFile) :=
  let expiresAt :=
    match ttl with
    | some t => if t != 0 then some (now + t * 1000) else none
    | none => none
  insertFile dir (diskFileName hash key)
    (DiskFile.record (storeResult enc v) expiresAt)

/-! ### Concrete environments for evaluation -/

/-- A trivial environment: every string passes the zod URL test, the URL
constructor always throws, the fetcher always fails, and the engine echoes
its input bytes as a 1x1 png.  Used for buffer-only evaluations. -/
def envT : Env where
  validUrl _ := true
  parseUrl _ := none
  fetch _ := .error ()
  transform bytes _ := { data := bytes, format := some "png", width := 1, height := 1 }

/-- A tiny concrete WHATWG URL parser covering the hostnames the spec's
allowlist examples use. -/
def toyParseUrl (s : String) : Option UrlParts :=
  if s = "https://cdn.example.com/x.png" then
    some { hostname := "cdn.example.com", normalized := s }
  else if s = "https://evil.com/x.png" then
    some { hostname := "evil.com", normalized := s }
  else
    none

/-- An environment with the toy URL parser, a fetcher returning fixed bytes,
and the echoing engine. -/
def envU : Env where
  validUrl _ := true
  parseUrl := toyParseUrl
  fetch _ := .ok [7, 7, 7]
  transform bytes _ := { data := bytes, format := some "png", width := 1, height := 1 }

/-! ### Helper lemmas about the cache backends -/

theorem cacheLookup_none (impl : CacheImpl σ) (key : String) :
    cacheLookup impl none key = (none, none) := rfl

theorem cacheLookup_mem (st : List (String × ProcessResult)) (key : String) :
    cacheLookup memCache (some st) key
      = ((st.find? fun e => e.fst == key).map Prod.snd, some st) := rfl

theorem cacheWrite_none (impl : CacheImpl σ) (key : String) (v : ProcessResult) :
    cacheWrite impl none key v = .ok none := rfl

theorem cacheWrite_mem (st : List (String × ProcessResult)) (key : String)
    (v : ProcessResult) :
    cacheWrite memCache (some st) key v
      = .ok (some ((key, v) :: st.filter fun e => e.fst != key)) := rfl

theorem find?_insert_self (st : List (String × ProcessResult)) (key : String)
    (v : ProcessResult) :
    (((key, v) :: st.filter fun e => e.fst != key).find? fun e => e.fst == key)
      = some (key, v) := by
  rw [List.find?_cons_of_pos]
  simp

/-- `zodParse` never reads the `buffer` member (the schema has no such
field; zod strips unknown keys). -/
theorem zodParse_ignores_buffer (env : Env) (i : ProcessInput) (b : Option (List Nat)) :
    zodParse env { i with buffer := b } = zodParse env i := rfl

/-! ### Claim theorems -/

/-- Configuration with `maxWidth: 4000`. -/
def cfgC1 : Config := { maxWidth := some 4000 }

/-- A buffer request with `w: 9000`, exceeding the configured maximum. -/
def inputC1 : ProcessInput := { buffer := some [1, 2, 3], w := some 9000 }

/-- Claim C1: with `maxWidth = 4000` and a requested `w = 9000`, the code derives
the cache key with the UNCLAMPED value 9000 and resizes to width 9000 — the
clamp on lines 153-155 mutates `input`, which nothing downstream reads
(`parsed`, zod's copy, feeds both the key and the pipeline).  This theorem
evaluates the code at the failing input, exhibiting the bug the claim's
invariant rules out. -/
theorem clamp_dead_at_failing_input :
    (process cfgC1 envT memCache none inputC1).keyUsed
      = some "\x7b\"u\":\"buffer\",\"w\":9000,\"fit\":\"cover\",\"q\":80\x7d"
    ∧ (process cfgC1 envT memCache none inputC1).opsUsed
      = some [SharpOp.resizeWH (some 9000) none Fit.cover false]
    ∧ (clampDims cfgC1 inputC1).w = some 4000 := by
  refine ⟨rfl, rfl, rfl⟩

/-- The empty configuration (all members absent). -/
def cfgEmpty : Config := {}

/-- A buffer request with `w: 5` and the `crop` field absent. -/
def inputC4a : ProcessInput := { buffer := some [1, 2, 3], w := some 5 }

/-- The same request with `crop: "center"` supplied explicitly. -/
def inputC4b : ProcessInput :=
  { buffer := some [1, 2, 3], w := some 5, crop := some Crop.center }

/-- Claim C4: a request with `crop` absent does NOT behave like `crop = "center"`:
zod's `.default("center").optional()` never applies the default (the outer
optional returns `undefined` first), so the resize is positioned with
`"attention"` (`posCentre = false`) instead of `"centre"`, and the two
requests even derive different cache keys.  This theorem evaluates the code
at the failing input, exhibiting the divergence. -/
theorem crop_default_defeated :
    (process cfgEmpty envT memCache none inputC4a).opsUsed
      = some [SharpOp.resizeWH (some 5) none Fit.cover false]
    ∧ (process cfgEmpty envT memCache none inputC4b).opsUsed
      = some [SharpOp.resizeWH (some 5) none Fit.cover true]
    ∧ (process cfgEmpty envT memCache none inputC4a).keyUsed
      ≠ (process cfgEmpty envT memCache none inputC4b).keyUsed := by
  refine ⟨rfl, rfl, by decide⟩

/-- Reduction of the residual guard left by rewriting a decided condition. -/
theorem if_false_true {α : Sort u} (a b : α) :
    (if false = true then a else b) = b := rfl

/-- Claim C2 counterexample: with a configured cache whose `set` rejects, `process`
does NOT return the assembled result — the rejection of the awaited
`cache.set` propagates to the caller. -/
theorem cacheSet_rejection_fails_request :
    (process cfgEmpty envT failSetCache (some ()) inputC4a).result
      = .error PError.cacheSetFailed := rfl

/-- Claim C2 (amended): a request that succeeds without a cache fails with the
cache-write error once a cache whose `set` rejects is configured: the
`await cache.set(cacheKey, result)` on line 214 has no catch, so the
rejection aborts the request instead of degrading to no caching. -/
theorem cacheSet_rejection_propagates (cfg : Config) (env : Env)
    (i : ProcessInput) (r : ProcessResult)
    (h : (process cfg env failSetCache none i).result = .ok r) :
    (process cfg env failSetCache (some ()) i).result
      = .error PError.cacheSetFailed := by
  unfold process at h ⊢
  cases hz : zodParse env i <;> simp only [hz] at h ⊢
  · simp at h
  case some p =>
    by_cases hni : (i.buffer.isNone && p.url.isNone) = true <;>
      simp only [hni, if_true, if_false] at h ⊢
    · simp at h
    · by_cases hwl : whitelistRejects cfg env p.url = true <;>
        simp only [hwl, if_true, if_false] at h ⊢
      · simp at h
      · cases hkf : keyFieldsOf env (defaultQualityOf cfg) p <;>
          simp only [hkf] at h ⊢
        case neg.error e =>
          simp at h
        case neg.ok kf =>
          simp only [cacheLookup_none] at h
          simp only [cacheLookup, failSetCache] at h ⊢
          cases hsb : sourceBytes env (clampDims cfg i) p <;>
            simp only [hsb] at h ⊢
          · simp at h
          case ok bd =>
            obtain ⟨bytes, df⟩ := bd
            simp only [cacheWrite_none] at h
            simp only [cacheWrite, failSetCache, Except.map] at h ⊢
            simp

/-- Claim C2 witness: the amended theorem applied at a concrete buffer request
that succeeds without a cache. -/
theorem cacheSet_rejection_propagates_witness :
    (process cfgEmpty envT failSetCache (some ()) inputC4a).result
      = .error PError.cacheSetFailed :=
  cacheSet_rejection_propagates cfgEmpty envT inputC4a
    { buffer := [1, 2, 3], contentType := "image/png",
      etag := "W/\"3-6\"", width := some 1, height := some 1 } rfl

/-- A second `process` call whose parse agrees with a first, successful call
is served the first call's result from the in-memory cache, invoking neither
the fetcher nor the transform engine. -/
theorem second_call_hits (cfg : Config) (env : Env)
    (st st1 : List (String × ProcessResult)) (i j : ProcessInput)
    (r : ProcessResult)
    (hparse : zodParse env j = zodParse env i)
    (hbuf : j.buffer.isNone = i.buffer.isNone)
    (h1 : (process cfg env memCache (some st) i).result = .ok r)
    (h2 : (process cfg env memCache (some st) i).cache = some st1) :
    (process cfg env memCache (some st1) j).result = .ok r
    ∧ (process cfg env memCache (some st1) j).transformed = false
    ∧ (process cfg env memCache (some st1) j).fetched = false := by
  unfold process at h1 h2 ⊢
  rw [hparse, hbuf]
  cases hz : zodParse env i <;> simp only [hz] at h1 h2 ⊢
  · simp at h1
  case some p =>
    by_cases hni : (i.buffer.isNone && p.url.isNone) = true <;>
      simp only [hni, if_true, if_false] at h1 h2 ⊢
    · simp at h1
    · by_cases hwl : whitelistRejects cfg env p.url = true <;>
        simp only [hwl, if_true, if_false] at h1 h2 ⊢
      · simp at h1
      · cases hkf : keyFieldsOf env (defaultQualityOf cfg) p <;>
          simp only [hkf] at h1 h2 ⊢
        case neg.error e => simp at h1
        case neg.ok kf =>
          simp only [cacheLookup_mem] at h1 h2 ⊢
          cases hfind : st.find? (fun e => e.fst == stringifyKey kf) <;>
            simp only [hfind, Option.map_some', Option.map_none'] at h1 h2
          case none =>
            cases hsb : sourceBytes env (clampDims cfg i) p <;>
              simp only [hsb] at h1 h2
            · simp at h1
            case ok bd =>
              obtain ⟨bytes, df⟩ := bd
              simp only [cacheWrite_mem] at h1 h2
              simp only [if_false_true] at h1 h2 ⊢
              simp only [Except.ok.injEq] at h1
              simp only [Option.some.injEq] at h2
              subst h2
              simp only [find?_insert_self, Option.map_some']
              simp [h1]
          case some e =>
            simp only [if_false_true] at h1 h2 ⊢
            simp only [Except.ok.injEq] at h1
            simp only [Option.some.injEq] at h2
            subst h2
            simp only [hfind, Option.map_some']
            simp [h1]

/-- Claim C8: calling `process` twice with identical parameters against the
in-memory cache returns the identical (hence byte-identical) result on the
second call, which is served from the cache entry the first call read or
wrote, with neither the fetcher nor the transform engine invoked. -/
theorem process_idempotent_cached (cfg : Config) (env : Env)
    (st st1 : List (String × ProcessResult)) (i : ProcessInput)
    (r : ProcessResult)
    (h1 : (process cfg env memCache (some st) i).result = .ok r)
    (h2 : (process cfg env memCache (some st) i).cache = some st1) :
    (process cfg env memCache (some st1) i).result = .ok r
    ∧ (process cfg env memCache (some st1) i).transformed = false
    ∧ (process cfg env memCache (some st1) i).fetched = false :=
  second_call_hits cfg env st st1 i i r rfl rfl h1 h2

/-- The result the echo engine produces for the buffer `[1,2,3]`. -/
def rC8 : ProcessResult :=
  { buffer := [1, 2, 3], contentType := "image/png", etag := "W/\"3-6\"",
    width := some 1, height := some 1 }

/-- The cache state after a first miss on `inputC4a`. -/
def stC8 : List (String × ProcessResult) :=
  [("\x7b\"u\":\"buffer\",\"w\":5,\"fit\":\"cover\",\"q\":80\x7d", rC8)]

/-- Claim C8 witness: the idempotence theorem applied to the concrete cache state
the first call on `inputC4a` produces. -/
theorem process_idempotent_cached_witness :
    (process cfgEmpty envT memCache (some stC8) inputC4a).result = .ok rC8
    ∧ (process cfgEmpty envT memCache (some stC8) inputC4a).transformed = false
    ∧ (process cfgEmpty envT memCache (some stC8) inputC4a).fetched = false :=
  process_idempotent_cached cfgEmpty envT [] stC8 inputC4a rC8 rfl rfl

/-- A buffer request with bytes `[4,4]` and `h: 7`. -/
def inputC3 : ProcessInput := { buffer := some [4, 4], h := some 7 }

/-- The result the echo engine produces for the buffer `[4,4]`. -/
def rC3 : ProcessResult :=
  { buffer := [4, 4], contentType := "image/png", etag := "W/\"2-8\"",
    width := some 1, height := some 1 }

/-- The cache state after a first miss on `inputC3`. -/
def stC3 : List (String × ProcessResult) :=
  [("\x7b\"u\":\"buffer\",\"h\":7,\"fit\":\"cover\",\"q\":80\x7d", rC3)]

/-- Claim C3 counterexample: a second buffer submission with identical bytes and
identical parameters IS served from the first submission's cache entry: the
first call (empty cache) produces `rC3` and populates the cache, and the
second identical call returns the stored result without transforming or
fetching. -/
theorem buffer_resubmission_hits_cache :
    (process cfgEmpty envT memCache (some []) inputC3).result = .ok rC3
    ∧ (process cfgEmpty envT memCache (some []) inputC3).cache = some stC3
    ∧ (process cfgEmpty envT memCache (some stC3) inputC3).result = .ok rC3
    ∧ (process cfgEmpty envT memCache (some stC3) inputC3).transformed = false
    ∧ (process cfgEmpty envT memCache (some stC3) inputC3).fetched = false :=
  ⟨rfl, rfl, rfl, rfl, rfl⟩

/-- Claim C3 (amended): two buffer submissions with no URL and identical transform
parameters map to the same sentinel cache key, so after the first call
populates the cache the second call (identical bytes or not) is served the
first call's cached result instead of being transformed again. -/
theorem buffer_submissions_share_cache_entry (cfg : Config) (env : Env)
    (st st1 : List (String × ProcessResult)) (i : ProcessInput)
    (b1 b2 : List Nat) (r : ProcessResult)
    (_hurl : i.url = none)
    (h1 : (process cfg env memCache (some st) { i with buffer := some b1 }).result = .ok r)
    (h2 : (process cfg env memCache (some st) { i with buffer := some b1 }).cache = some st1) :
    (process cfg env memCache (some st1) { i with buffer := some b2 }).result = .ok r
    ∧ (process cfg env memCache (some st1) { i with buffer := some b2 }).transformed = false := by
  have h := second_call_hits cfg env st st1 { i with buffer := some b1 }
    { i with buffer := some b2 } r
    (by simp only [zodParse_ignores_buffer]) rfl h1 h2
  exact ⟨h.1, h.2.1⟩

/-- Claim C3 witness: the amended theorem applied with identical bytes `[4,4]` on
both submissions. -/
theorem buffer_submissions_share_cache_entry_witness :
    (process cfgEmpty envT memCache (some stC3) inputC3).result = .ok rC3
    ∧ (process cfgEmpty envT memCache (some stC3) inputC3).transformed = false :=
  buffer_submissions_share_cache_entry cfgEmpty envT [] stC3 { h := some 7 }
    [4, 4] [4, 4] rC3 rfl rfl rfl

/-- The width clamp does not touch the `buffer` member. -/
theorem clampW_buffer (cfg : Config) (i : ProcessInput) :
    (clampW cfg i).buffer = i.buffer := by
  unfold clampW
  split
  · split <;> rfl
  · rfl

/-- The height clamp does not touch the `buffer` member. -/
theorem clampH_buffer (cfg : Config) (i : ProcessInput) :
    (clampH cfg i).buffer = i.buffer := by
  unfold clampH
  split
  · split <;> rfl
  · rfl

/-- The clamping statements do not touch the `buffer` member. -/
theorem clampDims_buffer (cfg : Config) (i : ProcessInput) :
    (clampDims cfg i).buffer = i.buffer := by
  unfold clampDims
  rw [clampH_buffer, clampW_buffer]

/-- Whenever the input carries a buffer, `process` never invokes the
fetcher: lines 179-185 use the supplied buffer verbatim and skip
`fetchImage`. -/
theorem fetched_false_of_buffer (σ : Type) (cfg : Config) (env : Env)
    (impl : CacheImpl σ) (c : Option σ) (i : ProcessInput) (b : List Nat)
    (hb : i.buffer = some b) :
    (process cfg env impl c i).fetched = false := by
  unfold process
  cases hz : zodParse env i with
  | none => rfl
  | some p =>
    dsimp only
    cases hni : (i.buffer.isNone && p.url.isNone) with
    | true => rfl
    | false =>
      cases hwl : whitelistRejects cfg env p.url with
      | true => rfl
      | false =>
        cases hkf : keyFieldsOf env (defaultQualityOf cfg) p with
        | error e => rfl
        | ok kf =>
          rcases hcl : cacheLookup impl c (stringifyKey kf) with ⟨hit, c1⟩
          simp only [hcl]
          cases hit with
          | some hitv => rfl
          | none =>
            have hsb : sourceBytes env (clampDims cfg i) p = .ok (b, false) := by
              unfold sourceBytes
              rw [clampDims_buffer, hb]
            simp only [hsb]
            cases hcw : cacheWrite impl c1 (stringifyKey kf)
                (assembleResult (allowedRequestFormat cfg p.format)
                  (env.transform b (fullOps cfg p))) <;> simp only [hcw] <;> rfl

/-- Claim C9: the cache key's source identity depends only on the `url` field,
never on buffer contents: a present URL puts the parsed URL's normalized
string in the key's `u` member even when a buffer is also supplied (and the
buffer, not a fetch, then provides the source bytes — the fetcher is never
invoked when a buffer is present); with no URL the `u` member is the fixed
sentinel `"buffer"`; consequently two calls with different buffer bytes but
identical parameters derive the same key and the second call is served the
first buffer's cached result. -/
theorem cache_key_source_identity :
    (∀ (env : Env) (dq : Nat) (p : Parsed) (s : String) (u : UrlParts),
        p.url = some s → env.parseUrl s = some u →
        keyFieldsOf env dq p = Except.ok
          { u := u.normalized, w := p.w, h := p.h, fit := p.fit, f := p.format,
            q := p.quality.getD dq, c := p.crop, bg := p.bg, bl := p.blur,
            gs := p.grayscale, r := p.rotate, p := p.placeholder })
    ∧ (∀ (env : Env) (dq : Nat) (p : Parsed), p.url = none →
        keyFieldsOf env dq p = Except.ok
          { u := "buffer", w := p.w, h := p.h, fit := p.fit, f := p.format,
            q := p.quality.getD dq, c := p.crop, bg := p.bg, bl := p.blur,
            gs := p.grayscale, r := p.rotate, p := p.placeholder })
    ∧ (∀ (σ : Type) (cfg : Config) (env : Env) (impl : CacheImpl σ)
          (c : Option σ) (i : ProcessInput) (b : List Nat),
        i.buffer = some b → (process cfg env impl c i).fetched = false)
    ∧ (∀ (cfg : Config) (env : Env) (st st1 : List (String × ProcessResult))
          (i : ProcessInput) (b1 b2 : List Nat) (r : ProcessResult),
        i.url = none →
        (process cfg env memCache (some st) { i with buffer := some b1 }).result = .ok r →
        (process cfg env memCache (some st) { i with buffer := some b1 }).cache = some st1 →
        (process cfg env memCache (some st1) { i with buffer := some b2 }).result = .ok r) := by
  refine ⟨?_, ?_, ?_, ?_⟩
  · intro env dq p s u hs hu
    unfold keyFieldsOf
    simp only [hs, hu]
  · intro env dq p h
    unfold keyFieldsOf
    simp only [h]
  · exact fetched_false_of_buffer
  · intro cfg env st st1 i b1 b2 r _h hr hc
    exact (second_call_hits cfg env st st1 { i with buffer := some b1 }
      { i with buffer := some b2 } r (by simp only [zodParse_ignores_buffer])
      rfl hr hc).1

/-- The echo-engine result for the buffer `[1,2,3]` under `w: 3`. -/
def rC9 : ProcessResult :=
  { buffer := [1, 2, 3], contentType := "image/png", etag := "W/\"3-6\"",
    width := some 1, height := some 1 }

/-- The cache state after a first miss on the `w: 3` buffer request. -/
def stC9 : List (String × ProcessResult) :=
  [("\x7b\"u\":\"buffer\",\"w\":3,\"fit\":\"cover\",\"q\":80\x7d", rC9)]

/-- Claim C9 witness: the URL identity, the fetcher bypass with URL and buffer both
supplied, and a second call with different bytes `[9,9,9]` served the cached
result of `[1,2,3]`. -/
theorem cache_key_source_identity_witness :
    keyFieldsOf envU 80
      { url := some "https://cdn.example.com/x.png", w := none, h := none,
        fit := Fit.cover, format := none, quality := none, crop := none,
        bg := none, blur := none, grayscale := none, rotate := none,
        placeholder := none }
      = Except.ok
        { u := "https://cdn.example.com/x.png", w := none, h := none,
          fit := Fit.cover, f := none, q := 80, c := none, bg := none,
          bl := none, gs := none, r := none, p := none }
    ∧ (process cfgEmpty envU memCache none
        { url := some "https://cdn.example.com/x.png", buffer := some [5] }).fetched
        = false
    ∧ keyFieldsOf envT 80
        { url := none, w := some 3, h := none, fit := Fit.cover,
          format := none, quality := none, crop := none, bg := none,
          blur := none, grayscale := none, rotate := none,
          placeholder := none }
      = Except.ok
        { u := "buffer", w := some 3, h := none, fit := Fit.cover, f := none,
          q := 80, c := none, bg := none, bl := none, gs := none, r := none,
          p := none }
    ∧ (process cfgEmpty envT memCache (some stC9)
        { buffer := some [9, 9, 9], w := some 3 }).result = .ok rC9 :=
  ⟨cache_key_source_identity.1 envU 80 _ "https://cdn.example.com/x.png"
      { hostname := "cdn.example.com", normalized := "https://cdn.example.com/x.png" }
      rfl rfl,
   cache_key_source_identity.2.2.1 _ cfgEmpty envU memCache none _ [5] rfl,
   cache_key_source_identity.2.1 envT 80 _ rfl,
   cache_key_source_identity.2.2.2 cfgEmpty envT [] stC9 { w := some 3 }
      [1, 2, 3] [9, 9, 9] rC9 rfl rfl rfl⟩

/-- Claim C5: two normalized requests whose field values are equal produce the
identical cache key string: `deriveKey` serializes the fixed, explicit field
set `u, w, h, fit, f, q, c, bg, bl, gs, r, p` in fixed declaration order
(`JSON.stringify` of an object literal), so the key depends only on the
field values, never on construction order. -/
theorem deriveKey_deterministic (env : Env) (dq : Nat) (p1 p2 : Parsed)
    (h1 : p1.url = p2.url) (h2 : p1.w = p2.w) (h3 : p1.h = p2.h)
    (h4 : p1.fit = p2.fit) (h5 : p1.format = p2.format)
    (h6 : p1.quality = p2.quality) (h7 : p1.crop = p2.crop)
    (h8 : p1.bg = p2.bg) (h9 : p1.blur = p2.blur)
    (h10 : p1.grayscale = p2.grayscale) (h11 : p1.rotate = p2.rotate)
    (h12 : p1.placeholder = p2.placeholder) :
    deriveKey env dq p1 = deriveKey env dq p2 := by
  have h : p1 = p2 := by
    cases p1; cases p2; simp_all
  rw [h]

/-- The cache-key expression can only throw the URL-constructor error. -/
theorem keyFieldsOf_error (env : Env) (dq : Nat) (p : Parsed) (e : PError)
    (h : keyFieldsOf env dq p = .error e) : e = PError.urlParse := by
  unfold keyFieldsOf at h
  cases hu : p.url with
  | none =>
    simp only [hu] at h
    exact absurd h (by simp)
  | some s2 =>
    simp only [hu] at h
    cases hp : env.parseUrl s2 with
    | none =>
      simp only [hp] at h
      injection h with h2
      exact h2.symm
    | some u2 =>
      simp only [hp] at h
      exact absurd h (by simp)

/-- Source-byte acquisition can only fail with the fetcher error. -/
theorem sourceBytes_error (env : Env) (i1 : ProcessInput) (p : Parsed)
    (e : PError) (h : sourceBytes env i1 p = .error e) :
    e = PError.fetchFailed := by
  unfold sourceBytes at h
  cases hb : i1.buffer with
  | some b =>
    simp only [hb] at h
    exact absurd h (by simp)
  | none =>
    simp only [hb] at h
    cases hf : env.fetch (p.url.getD "") with
    | ok bs =>
      simp only [hf] at h
      exact absurd h (by simp)
    | error u2 =>
      simp only [hf] at h
      injection h with h2
      exact h2.symm

/-- Claim C6: with a configured hostname allowlist and a URL input, `process`
fails with the 403 `AccessDeniedError` exactly when the URL's hostname does
not end with any allowlisted suffix; in particular a hostname ending with an
allowlisted suffix is never rejected by the allowlist check. -/
theorem allowlist_enforcement (σ : Type) (cfg : Config) (env : Env)
    (impl : CacheImpl σ) (cacheSt : Option σ) (i : ProcessInput)
    (ws : List String) (s : String) (u : UrlParts) (p : Parsed)
    (hw : cfg.whitelist = some ws)
    (hz : zodParse env i = some p)
    (hu : p.url = some s)
    (hpu : env.parseUrl s = some u) :
    ((process cfg env impl cacheSt i).result = .error PError.accessDenied
      ↔ ∀ d ∈ ws, strEndsWith u.hostname d = false) := by
  have hwr : whitelistRejects cfg env p.url
      = !(ws.any fun d => strEndsWith u.hostname d) := by
    unfold whitelistRejects
    simp only [hw, hu, hpu]
  have hni : (i.buffer.isNone && p.url.isNone) = false := by
    simp [hu]
  unfold process
  simp only [hz, hni, if_false_true]
  cases hany : ws.any fun d => strEndsWith u.hostname d
  case false =>
    rw [hany] at hwr
    simp only [hwr, Bool.not_false, if_true]
    have hrhs : ∀ d ∈ ws, strEndsWith u.hostname d = false := by
      intro d hd
      by_contra hne
      have he : strEndsWith u.hostname d = true := by
        cases he2 : strEndsWith u.hostname d
        · exact absurd he2 hne
        · rfl
      have hx : ws.any (fun d => strEndsWith u.hostname d) = true :=
        List.any_eq_true.mpr ⟨d, hd, he⟩
      rw [hany] at hx
      exact Bool.false_ne_true hx
    exact iff_of_true trivial hrhs
  case true =>
    rw [hany] at hwr
    simp only [hwr, Bool.not_true, if_false_true]
    have hrhs : ¬ ∀ d ∈ ws, strEndsWith u.hostname d = false := by
      simp only [List.any_eq_true] at hany
      obtain ⟨d, hd, he⟩ := hany
      intro hall
      rw [hall d hd] at he
      exact Bool.false_ne_true he
    cases hkf : keyFieldsOf env (defaultQualityOf cfg) p with
    | error e =>
      have he := keyFieldsOf_error env (defaultQualityOf cfg) p e hkf
      simp [he, hrhs]
    | ok kf =>
      rcases hcl : cacheLookup impl cacheSt (stringifyKey kf) with ⟨hit, c1⟩
      simp only [hcl]
      cases hit with
      | some hitv => simp [hrhs]
      | none =>
        cases hsb : sourceBytes env (clampDims cfg i) p with
        | error e =>
          have he := sourceBytes_error env (clampDims cfg i) p e hsb
          simp only [hsb]
          simp [he, hrhs]
        | ok bd =>
          obtain ⟨bytes, df⟩ := bd
          simp only [hsb]
          cases hcw : cacheWrite impl c1 (stringifyKey kf)
              (assembleResult (allowedRequestFormat cfg p.format)
                (env.transform bytes (fullOps cfg p))) <;>
            simp [hcw, hrhs]

/-- A fully populated normalized request. -/
def pC5a : Parsed :=
  { url := none, w := some 5, h := some 7, fit := Fit.cover,
    format := some Format.webp, quality := some 60, crop := some Crop.center,
    bg := some "red", blur := some 2, grayscale := some true,
    rotate := some 90, placeholder := some Placeholder.nonePh }

/-- The same field values supplied in the reverse order. -/
def pC5b : Parsed :=
  { placeholder := some Placeholder.nonePh, rotate := some 90,
    grayscale := some true, blur := some 2, bg := some "red",
    crop := some Crop.center, quality := some 60,
    format := some Format.webp, fit := Fit.cover, h := some 7,
    w := some 5, url := none }

/-- Claim C5 witness: the determinism theorem applied to two requests constructed
with their fields listed in opposite orders. -/
theorem deriveKey_deterministic_witness :
    deriveKey envT 80 pC5a = deriveKey envT 80 pC5b :=
  deriveKey_deterministic envT 80 pC5a pC5b rfl rfl rfl rfl rfl rfl rfl rfl
    rfl rfl rfl rfl

/-- A configuration with `whitelist: ["example.com"]`. -/
def cfgW : Config := { whitelist := some ["example.com"] }

/-- A request for a URL outside the allowlist. -/
def inputEvil : ProcessInput := { url := some "https://evil.com/x.png" }

/-- A request for a subdomain of an allowlisted suffix. -/
def inputCdn : ProcessInput := { url := some "https://cdn.example.com/x.png" }

/-- Claim C6 witness: with `whitelist = ["example.com"]`, the request for
`https://evil.com/x.png` fails with the 403 error and the request for
`https://cdn.example.com/x.png` does not (suffix match). -/
theorem allowlist_enforcement_witness :
    (process cfgW envU memCache none inputEvil).result
      = .error PError.accessDenied
    ∧ ¬ (process cfgW envU memCache none inputCdn).result
      = .error PError.accessDenied := by
  constructor
  · exact (allowlist_enforcement _ cfgW envU memCache none inputEvil
      ["example.com"] "https://evil.com/x.png"
      { hostname := "evil.com", normalized := "https://evil.com/x.png" }
      _ rfl rfl rfl rfl).mpr (by decide)
  · intro hcontra
    have h := (allowlist_enforcement _ cfgW envU memCache none inputCdn
      ["example.com"] "https://cdn.example.com/x.png"
      { hostname := "cdn.example.com", normalized := "https://cdn.example.com/x.png" }
      _ rfl rfl rfl rfl).mp hcontra
    have h2 := h "example.com" (by simp)
    exact absurd h2 (by decide)

/-- Claim C7: for the disk backend, `get` on a record whose stored expiry is in the
past returns the absent value and deletes the persisted file as a side
effect of that same read; and a missing or unparseable record yields the
absent value with the directory untouched — a miss never raises. -/
theorem diskGet_expiry_and_miss (hash : String → String)
    (dec : String → List Nat) (now : Nat) (dir : List (String × DiskFile))
    (key : String) :
    (∀ (v : DiskStored) (e : Nat),
        lookupFile dir (diskFileName hash key)
          = some (DiskFile.record v (some e)) →
        e ≠ 0 → now > e →
        diskGet hash dec now dir key
          = (none, removeFile dir (diskFileName hash key)))
    ∧ (lookupFile dir (diskFileName hash key) = none →
        diskGet hash dec now dir key = (none, dir))
    ∧ (lookupFile dir (diskFileName hash key) = some DiskFile.corrupt →
        diskGet hash dec now dir key = (none, dir)) := by
  refine ⟨?_, ?_, ?_⟩
  · intro v e hl he hn
    unfold diskGet
    simp only [hl]
    have hexp : expiryPassed (some e) now = true := by
      simp [expiryPassed, he, hn]
    simp only [hexp, if_true]
  · intro hl
    unfold diskGet
    simp only [hl]
  · intro hl
    unfold diskGet
    simp only [hl]

/-- An opaque SHA-1 stand-in for the witness. -/
def hashW : String → String := fun k => k

/-- An opaque base64 encoder stand-in for the witness. -/
def encW : List Nat → String := fun _ => "x"

/-- An opaque base64 decoder stand-in for the witness. -/
def decW : String → List Nat := fun _ => []

/-- A small stored result for the disk witness. -/
def rD : ProcessResult :=
  { buffer := [1], contentType := "image/png", etag := "e" }

/-- Claim C7 witness: a record written with `ttl = 1` at time 1000 (expiry 2000)
and read at time 3000 is absent and its file is removed by the read. -/
theorem diskGet_expiry_and_miss_witness :
    diskGet hashW decW 3000 (diskSet hashW encW (some 1) 1000 [] "k" rD) "k"
      = (none, [])
    ∧ diskGet hashW decW 3000 [] "missing" = (none, [])
    ∧ diskGet hashW decW 3000 [("c.json", DiskFile.corrupt)] "c"
      = (none, [("c.json", DiskFile.corrupt)]) := by
  refine ⟨?_, ?_, ?_⟩
  · have h := (diskGet_expiry_and_miss hashW decW 3000
      (diskSet hashW encW (some 1) 1000 [] "k" rD) "k").1
      (storeResult encW rD) 2000 rfl (by decide) (by decide)
    exact h.trans (by rfl)
  · exact (diskGet_expiry_and_miss hashW decW 3000 [] "missing").2.1 rfl
  · exact (diskGet_expiry_and_miss hashW decW 3000
      [("c.json", DiskFile.corrupt)] "c").2.2 rfl

/-- The format-specific encode is never part of the `buildSharpPipeline`
chain (it is appended afterwards, lines 198-201). -/
theorem encode_not_in_pipeline (p : Parsed) (g : Format) (q : Nat) :
    SharpOp.encode g q ∉ buildSharpPipeline p := by
  unfold buildSharpPipeline
  intro h
  simp only [List.append_assoc, List.mem_append] at h
  rcases h with h | h | h | h | h <;>
    (revert h; split <;> simp)

/-- Claim C10: requesting an output format outside the configured allowed set does
not raise: the encode step is skipped (no `encode` operation reaches the
engine), the result's content type is derived from the engine's reported
output format (the `none` argument of `assembleResult`), and the cache key
still records the requested format string in its `f` member. -/
theorem disallowed_format_skipped (cfg : Config) (env : Env)
    (i : ProcessInput) (b : List Nat) (p : Parsed) (f : Format)
    (kf : KeyFields)
    (hb : i.buffer = some b)
    (hz : zodParse env i = some p)
    (hf : p.format = some f)
    (hall : (allowedFormats cfg).contains f = false)
    (hwl : whitelistRejects cfg env p.url = false)
    (hkf : keyFieldsOf env (defaultQualityOf cfg) p = .ok kf) :
    (process cfg env memCache none i).result
      = .ok (assembleResult none (env.transform b (fullOps cfg p)))
    ∧ (∀ (g : Format) (q : Nat), SharpOp.encode g q ∉ fullOps cfg p)
    ∧ kf.f = some f := by
  have haf : allowedRequestFormat cfg p.format = none := by
    unfold allowedRequestFormat
    simp only [hf, hall, if_false_true]
  have hmem : ∀ (g : Format) (q : Nat), SharpOp.encode g q ∉ fullOps cfg p := by
    intro g q h
    unfold fullOps at h
    rw [haf] at h
    simp only [List.append_nil, List.mem_append] at h
    rcases h with h | h
    · exact encode_not_in_pipeline p g q h
    · revert h
      split <;> simp
  have hni : (i.buffer.isNone && p.url.isNone) = false := by
    simp [hb]
  have hkff : kf.f = some f := by
    unfold keyFieldsOf at hkf
    cases hu : p.url with
    | none =>
      simp only [hu] at hkf
      injection hkf with h2
      rw [← h2, hf]
    | some s2 =>
      simp only [hu] at hkf
      cases hp : env.parseUrl s2 with
      | none =>
        simp only [hp] at hkf
        cases hkf
      | some u2 =>
        simp only [hp] at hkf
        injection hkf with h2
        rw [← h2, hf]
  refine ⟨?_, hmem, hkff⟩
  unfold process
  simp only [hz, hni, hwl, if_false_true]
  simp only [hkf, cacheLookup_none]
  have hsb : sourceBytes env (clampDims cfg i) p = .ok (b, false) := by
    unfold sourceBytes
    rw [clampDims_buffer, hb]
  simp only [hsb, cacheWrite_none, haf]

/-- A configuration allowing only webp output. -/
def cfg10 : Config := { formats := some [Format.webp] }

/-- A buffer request asking for the disallowed png format. -/
def input10 : ProcessInput := { buffer := some [1, 2], format := some Format.png }

/-- The parse of `input10`. -/
def p10 : Parsed :=
  { url := none, w := none, h := none, fit := Fit.cover,
    format := some Format.png, quality := none, crop := none, bg := none,
    blur := none, grayscale := none, rotate := none, placeholder := none }

/-- The key object of `input10` (the requested png recorded in `f`). -/
def kf10 : KeyFields :=
  { u := "buffer", w := none, h := none, fit := Fit.cover,
    f := some Format.png, q := 80, c := none, bg := none, bl := none,
    gs := none, r := none, p := none }

/-- Claim C10 witness: with `formats = [webp]` and a png request, the result is the
un-encoded engine output with the engine-derived content type, no encode
operation is in the chain, and the key records the requested png. -/
theorem disallowed_format_skipped_witness :
    (process cfg10 envT memCache none input10).result
      = .ok { buffer := [1, 2], contentType := "image/png",
              etag := "W/\"2-3\"", width := some 1, height := some 1 }
    ∧ (∀ (g : Format) (q : Nat), SharpOp.encode g q ∉ fullOps cfg10 p10)
    ∧ kf10.f = some Format.png := by
  have h := disallowed_format_skipped cfg10 envT input10 [1, 2] p10
    Format.png kf10 rfl rfl rfl rfl rfl rfl
  exact ⟨h.1, h.2.1, h.2.2⟩
